import Mathlib

/-!
Verification of the pull-jumper repository (WarcraftLogs → YouTube timestamp
converter). The definitions below are a shallow embedding of the computational
core of `src/components/WarcraftLogsToYoutubeConverter.tsx` (the live component,
imported by `src/pages/Index.tsx`) together with the legacy `addPull` handler
from an earlier evolution of the same component.

Modelling conventions for the JavaScript/TypeScript source:
* JS strings are Lean `String`; all character-level work happens on `.data`.
* JS numbers appearing here are integers; `NaN` is modelled as `none` in
  `Option Int`. The string-to-number conversions (`Number(...)`, `parseInt`)
  are modelled for integer decimal literals, which is the shape of every
  string reaching those call sites (pieces of `split(':')` on clock strings);
  fractional, hex and exponent literals are outside the modelled inputs.
* `Math.floor` on an integer quotient is `Int.fdiv`; the JS `%` operator is
  `Int.tmod` (truncated, sign of the dividend).
* `date-fns` `parse(s, fmt, ref)` (v2 semantics) returns an Invalid Date on
  failure instead of throwing; `format` throws on an Invalid Date. Units
  smaller than the ones in the format string are reset to zero, so
  `format(parse(s, "HH:mm", ref), "HH:mm:ss")` is the parsed hour and minute
  zero-padded with a `":00"` suffix. The numeric token `HH` matches one or
  two leading digits (regex `\d{1,2}`) with value at most 23, `mm` the same
  with value at most 59, and the whole input must be consumed.
-/

namespace PullJumper

/-- Characters the JS `\s` class / `String.prototype.trim` treat as whitespace
(the ASCII ones; the exotic Unicode spaces do not occur in the inputs). -/
def isJsWs (c : Char) : Bool :=
  c = ' ' || c = '\t' || c = '\n' || c = '\r' || c = '\x0b' || c = '\x0c'

/-- JS `String.prototype.split` with a single-character separator, on the
character list: `"".split(c) = [""]`, separators at the ends produce empty
pieces. -/
def splitOnChar (sep : Char) : List Char → List (List Char)
  | [] => [[]]
  | c :: cs =>
    if c = sep then
      [] :: splitOnChar sep cs
    else
      match splitOnChar sep cs with
      | [] => [[c]]
      | l :: ls => (c :: l) :: ls

/-- JS `split(sep)` at the `String` level. -/
def jsSplit (s : String) (sep : Char) : List String :=
  (splitOnChar sep s.data).map List.asString

/-- JS `String.prototype.trim` (both ends). -/
def jsTrim (s : String) : String :=
  List.asString (((s.data.dropWhile isJsWs).reverse.dropWhile isJsWs).reverse)

/-- JS `padStart(2, "0")`: prepend zeros up to length 2, never truncates. -/
def padStart2 (s : String) : String :=
  List.asString (List.replicate (2 - s.data.length) '0' ++ s.data)

/-- Zero-pad the decimal numeral of a natural number to two characters
(`n.toString().padStart(2, "0")`). -/
def pad2 (n : Nat) : String := padStart2 (Nat.repr n)

/-- Numeric value of a list of decimal digit characters, most significant
first (the value a JS numeric parse assigns to a digit run). -/
def digitsToNat (l : List Char) : Nat :=
  l.foldl (fun a c => a * 10 + (c.toNat - 48)) 0

/-- Leading decimal-digit run of a character list together with the rest. -/
def leadingDigits (l : List Char) : List Char × List Char :=
  (l.takeWhile Char.isDigit, l.dropWhile Char.isDigit)

/-- Sign-and-digit-run part of JS `parseInt` after whitespace skipping. -/
def jsParseIntCore : List Char → Option Int
  | [] => none
  | c :: r =>
    if c = '-' then
      let d := (leadingDigits r).1
      if d = [] then none else some (-(digitsToNat d : Int))
    else if c = '+' then
      let d := (leadingDigits r).1
      if d = [] then none else some (digitsToNat d : Int)
    else
      let d := (leadingDigits (c :: r)).1
      if d = [] then none else some (digitsToNat d : Int)

/-- JS `parseInt(s)` (radix 10): skip leading whitespace, optional sign, take
the leading digit run; `none` is `NaN`. Hexadecimal auto-detection is not
modelled (no `0x` strings reach this call site). -/
def jsParseInt (s : String) : Option Int :=
  jsParseIntCore (s.data.dropWhile isJsWs)

/-- JS `Number(s)` for the strings reaching the converter: whitespace-trimmed;
empty string is `0`; an optionally signed decimal integer literal is its
value; anything else is `NaN` (`none`). -/
def jsNumber (s : String) : Option Int :=
  match (jsTrim s).data with
  | [] => some 0
  | c :: r =>
    if c = '-' then
      if r ≠ [] ∧ r.all Char.isDigit then some (-(digitsToNat r : Int)) else none
    else if c = '+' then
      if r ≠ [] ∧ r.all Char.isDigit then some (digitsToNat r : Int) else none
    else
      if (c :: r).all Char.isDigit then some (digitsToNat (c :: r) : Int) else none

/-- Rendering of a JS number stored as `Option Int` by string interpolation:
`NaN` prints as `"NaN"`, integers in decimal. -/
def jsNumToStr : Option Int → String
  | none => "NaN"
  | some i => Int.repr i

/-- Value of one decimal digit character. -/
def digitVal (c : Char) : Nat := c.toNat - 48

/-- Match one or two leading decimal digits (regex `\d{1,2}`, greedy), the
numeric-token matcher used by the date-fns `HH` and `mm` format tokens. -/
def takeUpTo2Digits : List Char → Option (Nat × List Char)
  | [] => none
  | c1 :: rest =>
    if c1.isDigit then
      match rest with
      | c2 :: rest2 =>
        if c2.isDigit then some (digitVal c1 * 10 + digitVal c2, rest2)
        else some (digitVal c1, rest)
      | [] => some (digitVal c1, [])
    else none

/-- Match of the literal `:` inside a date-fns format string. -/
def expectColon : List Char → Option (List Char)
  | c :: r => if c = ':' then some r else none
  | [] => none

/-- date-fns v2 `parse(s, "HH:mm", ref)` success: token `HH` (one or two
digits, value ≤ 23), the literal `:`, token `mm` (one or two digits,
value ≤ 59), and the whole string consumed. Returns the parsed hour and
minute; `none` is an Invalid Date. -/
def dateFnsParseHHmm (s : String) : Option (Nat × Nat) :=
  match takeUpTo2Digits s.data with
  | none => none
  | some (h, rest) =>
    if h ≤ 23 then
      match expectColon rest with
      | none => none
      | some rest2 =>
        match takeUpTo2Digits rest2 with
        | none => none
        | some (m, rest3) =>
          if m ≤ 59 ∧ rest3 = [] then some (h, m) else none
    else none

/-- Catch block of `normalizeTimeInput` (the evening-shorthand heuristic):
hour taken by `parseInt` from the first `:`-separated part, 12 added when it
is below 12 (`NaN` compares false and stays `NaN`), minutes defaulting to 0
when the second part is missing or empty, both zero-padded, with a `":00"`
suffix. -/
def eveningShorthand (timeInput : String) : String :=
  let timeParts := jsSplit timeInput ':'
  let hours : Option Int := jsParseInt (timeParts.headD "")
  let minutes : Option Int :=
    match timeParts[1]? with
    | none => some 0
    | some p => if p = "" then some 0 else jsParseInt p
  let hours : Option Int :=
    match hours with
    | some h => if h < 12 then some (h + 12) else some h
    | none => none
  padStart2 (jsNumToStr hours) ++ ":" ++ padStart2 (jsNumToStr minutes) ++ ":00"

/-- Embedding of `normalizeTimeInput` from the live component (identical in
the legacy evolution). Control flow of the source: empty input returns `""`;
three or more `:`-separated components are returned unchanged (the
`parse(s, "HH:mm:ss", ...)` result is discarded and date-fns `parse` never
throws); otherwise a successful `HH:mm` parse is reformatted as `HH:mm:ss`;
on parse failure (`format` throwing on the Invalid Date) the catch block
applies the evening heuristic: hour taken by `parseInt`, plus 12 when below
12, minutes defaulting to 0, both zero-padded with a `":00"` suffix. -/
def normalizeTimeInput (timeInput : String) : String :=
  if timeInput = "" then ""
  else
    -- hasSeconds := timeInput.split(':').length > 2
    if (splitOnChar ':' timeInput.data).length > 2 then timeInput
    else
      match dateFnsParseHHmm timeInput with
      | some (h, m) => pad2 h ++ ":" ++ pad2 m ++ ":00"
      | none => eveningShorthand timeInput

/-- Embedding of `formatTimeForYoutube`. The source function is called only
with `Math.max(0, diffInSeconds)`, a non-negative integer, so the embedding
takes a `Nat`. Hours unpadded when positive; in the `H:MM:SS` form both
minutes and seconds are zero-padded; in the `M:SS` form only the seconds
are. -/
def formatTimeForYoutube (seconds : Nat) : String :=
  let hours := seconds / 3600
  let minutes := (seconds % 3600) / 60
  let remainingSeconds := seconds % 60
  if hours > 0 then
    Nat.repr hours ++ ":" ++ pad2 minutes ++ ":" ++ pad2 remainingSeconds
  else
    Nat.repr minutes ++ ":" ++ pad2 remainingSeconds

/-! ### Data model (`src/types/timestamp.ts`) -/

/-- Structure `TimestampEntry` from `src/types/timestamp.ts`. -/
structure TimestampEntry where
  id : String
  name : String
  pullTime : String
  deriving Repr, DecidableEq

/-- Structure `ParsedLogData` from `src/types/timestamp.ts`; `errorMessage` is the
optional field. -/
structure ParsedLogData where
  valid : Bool
  entries : List TimestampEntry
  errorMessage : Option String
  deriving Repr, DecidableEq

/-! ### The line-oriented log-text parser (`parseWarcraftlogs`)

The four regular expressions of the source and their use:
* `pullNumberRegex = /^(\d+)\s+\((\d+):(\d+)\)/` — anchored;
* `timeRegex = /(\d+):(\d+)\s+(AM|PM)/` — unanchored, leftmost match;
* `phaseRegex = /(P\d+|I\d+)/` — unanchored, leftmost match;
* `healthRegex = /^(\d+)%/` — anchored.

In each of these patterns every greedy `\d+` or `\s+` is followed by a
character no digit (respectively no whitespace) can satisfy, so the greedy
run without backtracking recognises exactly the same strings as the
backtracking regex engine; the matchers below therefore take greedy runs. -/

/-- Leading whitespace run (`\s+` at the current position). -/
def leadingWs (l : List Char) : List Char × List Char :=
  (l.takeWhile isJsWs, l.dropWhile isJsWs)

/-- Anchored match of `^(\d+)\s+\((\d+):(\d+)\)`; returns the three captured
digit groups (pull number, duration minutes, duration seconds). -/
def matchPullNumber (l : List Char) : Option (List Char × List Char × List Char) :=
  let (d1, r1) := leadingDigits l
  if d1 = [] then none
  else
    let (w, r2) := leadingWs r1
    if w = [] then none
    else
      match r2 with
      | '(' :: r3 =>
        let (d2, r4) := leadingDigits r3
        if d2 = [] then none
        else
          match r4 with
          | ':' :: r5 =>
            let (d3, r6) := leadingDigits r5
            if d3 = [] then none
            else
              match r6 with
              | ')' :: _ => some (d1, d2, d3)
              | _ => none
          | _ => none
      | _ => none

/-- Anchored match of `^(\d+)%`; returns the captured digit group. -/
def matchHealth (l : List Char) : Option (List Char) :=
  let (d, r) := leadingDigits l
  if d = [] then none
  else
    match r with
    | '%' :: _ => some d
    | _ => none

/-- Attempt of `(\d+):(\d+)\s+(AM|PM)` at the current position; returns the
hour digits, the minute digits and whether the marker is `PM`. -/
def matchTimeAt (l : List Char) : Option (List Char × List Char × Bool) :=
  let (d1, r1) := leadingDigits l
  if d1 = [] then none
  else
    match r1 with
    | ':' :: r2 =>
      let (d2, r3) := leadingDigits r2
      if d2 = [] then none
      else
        let (w, r4) := leadingWs r3
        if w = [] then none
        else
          match r4 with
          | 'A' :: 'M' :: _ => some (d1, d2, false)
          | 'P' :: 'M' :: _ => some (d1, d2, true)
          | _ => none
    | _ => none

/-- Leftmost match of the time regex over the line. -/
def findTimeTok : List Char → Option (List Char × List Char × Bool)
  | [] => none
  | c :: cs =>
    match matchTimeAt (c :: cs) with
    | some g => some g
    | none => findTimeTok cs

/-- Attempt of `(P\d+|I\d+)` at the current position; returns the matched
token (letter and digits). -/
def matchPhaseAt (l : List Char) : Option (List Char) :=
  match l with
  | c :: cs =>
    if c = 'P' ∨ c = 'I' then
      let (d, _) := leadingDigits cs
      if d = [] then none else some (c :: d)
    else none
  | [] => none

/-- Leftmost match of the phase regex over the line. -/
def findPhaseTok : List Char → Option (List Char)
  | [] => none
  | c :: cs =>
    match matchPhaseAt (c :: cs) with
    | some g => some g
    | none => findPhaseTok cs

/-- Running fields accumulated across lines by `parseWarcraftlogs`. The
source also keeps a `currentTime` variable, but it is only ever read in the
same iteration that assigns it (the emission check fires inside the
time-match branch with the just-assigned, always non-empty value), so it
is not part of the persistent state. -/
structure ScanState where
  pullNumber : String
  pullDuration : String
  phase : String
  health : String
  entries : List TimestampEntry

/-- Processing of one already-trimmed, non-empty line of `parseWarcraftlogs`:
the four regex checks in source order, then the emission step inside the
time-match branch. `now` seeds the entry ids (`Date.now()`), `i` is the line
index. -/
def scanLine (now : Nat) (i : Nat) (line : List Char) (st : ScanState) : ScanState :=
  let st :=
    match matchHealth line with
    | some d => { st with health := List.asString d ++ "%" }
    | none => st
  let st :=
    match findPhaseTok line with
    | some t => { st with phase := List.asString t }
    | none => st
  let st :=
    match matchPullNumber line with
    | some (d1, d2, d3) =>
      { st with pullNumber := List.asString d1,
                pullDuration := List.asString d2 ++ ":" ++ List.asString d3 }
    | none => st
  match findTimeTok line with
  | none => st
  | some (hd, md, pm) =>
    let hour : Nat := digitsToNat hd
    let hour : Nat :=
      if pm ∧ hour < 12 then hour + 12
      else if ¬ pm ∧ hour = 12 then 0 else hour
    let currentTime := pad2 hour ++ ":" ++ List.asString md ++ ":00"
    if st.pullNumber ≠ "" then
      let formattedName :=
        "Pull " ++ st.pullNumber
          ++ (if st.phase ≠ "" then ": " ++ st.phase else "")
          ++ (if st.health ≠ "" then " - " ++ st.health else "")
          ++ (if st.pullDuration ≠ "" then " (" ++ st.pullDuration ++ ")" else "")
      { pullNumber := "", pullDuration := "", phase := "", health := "",
        entries := st.entries
          ++ [{ id := Nat.repr now ++ Nat.repr i, name := formattedName,
                pullTime := currentTime }] }
    else st

/-- Line loop of `parseWarcraftlogs`: trim each line, skip empty ones. -/
def scanLines (now : Nat) : Nat → List String → ScanState → ScanState
  | _, [], st => st
  | i, l :: ls, st =>
    let line := (jsTrim l).data
    if line = [] then scanLines now (i + 1) ls st
    else scanLines now (i + 1) ls (scanLine now i line st)

/-- Embedding of `parseWarcraftlogs` (lines 181–286 of the live component;
the legacy evolution is line for line the same logic). The body of the
source can not throw (regex matching, string building and `Date.now()` do
not fail), so the catch-all branch returning `"Error parsing logs"` is dead
and the function is total. `now` models the `Date.now()` seed used for
entry ids. -/
def parseWarcraftlogs (now : Nat) (text : String) : ParsedLogData :=
  if jsTrim text = "" then
    { valid := false, entries := [], errorMessage := some "No text provided" }
  else if (scanLines now 0 (jsSplit text '\n')
      { pullNumber := "", pullDuration := "", phase := "", health := "",
        entries := [] }).entries = [] then
    { valid := false, entries := [],
      errorMessage := some "No valid pull data found in the text. Make sure it includes times in the format '7:46 PM'." }
  else
    { valid := true,
      entries := (scanLines now 0 (jsSplit text '\n')
        { pullNumber := "", pullDuration := "", phase := "", health := "",
          entries := [] }).entries,
      errorMessage := none }

/-! ### Offset computation (`calculateTimestamps`, live component) -/

/-- The destructuring `const [h, m, s] = t.split(':').map(Number)` followed by
`date.setHours(h, m, s || 0)` on a copy of the base date. A missing or `NaN`
hour or minute makes the date invalid, which the source surfaces by
`toISOString()` throwing; a missing or `NaN` seconds component is replaced
by `0` through `s || 0`. On success, returns the offset of the date from
the base-date midnight in seconds (JS `setHours` normalises out-of-range
components by rolling into neighbouring days, which is exactly this linear
combination) together with the raw hour component, which the source
compares separately. -/
def parseClockParts (t : String) : Option (Int × Int) :=
  match jsNumber ((jsSplit t ':').headD ""),
      (match (jsSplit t ':')[1]? with
        | none => none
        | some p => jsNumber p : Option Int) with
  | some h, some m =>
    some (h * 3600 + m * 60 +
      (match (jsSplit t ':')[2]? with
        | none => 0
        | some p => (jsNumber p).getD 0 : Int), h)
  | _, _ => none

/-- Per-entry body of the `entries.map` in `calculateTimestamps` (live
component): a pull time whose hour or minute component is not a number makes
the per-entry `try` block throw (at `toISOString()` on the invalid date) and
yields the `"Error <name>"` placeholder; otherwise the signed difference to
the video start is taken, a day is added only when the difference is
negative AND the raw pull hour is below the raw start hour, the result is
clamped to zero and formatted. Day arithmetic assumes a fixed UTC offset
(no DST jump between the two instants). -/
def entryLine (startSecs startHours : Int) (e : TimestampEntry) : String :=
  match parseClockParts e.pullTime with
  | none => "Error " ++ e.name
  | some (psecs, ph) =>
    let diff := psecs - startSecs
    let diff := if diff < 0 ∧ ph < startHours then diff + 86400 else diff
    formatTimeForYoutube (max diff 0).toNat ++ " " ++ e.name

/-- Embedding of `calculateTimestamps` from the live component (lines
87–160), restricted to its computation: `none` models the paths on which no
output is produced (the early return on a missing start time or empty entry
list, and the outer catch entered when the normalized start time itself has
a non-numeric hour or minute component). On success the produced output
text is the newline-join of the per-entry lines. -/
def calculateTimestamps (videoStartTime : String) (entries : List TimestampEntry) :
    Option String :=
  if videoStartTime = "" ∨ entries = [] then none
  else
    match parseClockParts (normalizeTimeInput videoStartTime) with
    | none => none
    | some (ssecs, sh) =>
      some (String.intercalate "\n" (entries.map (entryLine ssecs sh)))

/-! ### Legacy manual add (`addPull`, earlier evolution of the component) -/

/-- Embedding of `addPull` from the earlier evolution (part_000 lines
140–169). The guard rejects blank fields; afterwards the source normalizes
the time and calls `parse(normalizedTime, "HH:mm:ss", new Date())` inside a
`try` intended as validation — but date-fns `parse` reports failure by
returning an Invalid Date, not by throwing, so the catch block is
unreachable and the entry is appended unconditionally with the normalized
time. `none` models the rejected-input paths (no entry added). -/
def addPull (now : Nat) (pullName pullTime : String) (entries : List TimestampEntry) :
    Option (List TimestampEntry) :=
  if jsTrim pullName = "" ∨ jsTrim pullTime = "" then none
  else
    let normalizedTime := normalizeTimeInput pullTime
    some (entries ++ [{ id := Nat.repr now, name := jsTrim pullName,
                        pullTime := normalizedTime }])

/-! ### Remote report adapter (`fetchLogsFromUrl`, record-shaping core) -/

/-- One fight of the WarcraftLogs report JSON as the source reads it.
Optional fields model `undefined`. (The `LogsApiResponse` interface in
`src/types/timestamp.ts` omits `boss` and `lastPhaseIsIntermission`, but
the code reads both from the response.) -/
structure Fight where
  id : Int
  startTime : Int
  endTime : Int
  bossPercentage : Option Int
  lastPhaseForPercentageDisplay : Option Int
  lastPhaseIsIntermission : Option Bool
  boss : Int
  deriving Repr, DecidableEq

/-- The report payload fields used by the conversion. -/
structure LogsReport where
  start : Int
  fights : List Fight
  deriving Repr, DecidableEq

/-- JS truthiness of an optional number (`undefined` and `0` are falsy). -/
def truthyNum : Option Int → Bool
  | none => false
  | some v => v ≠ 0

/-- Time-of-day string of an epoch instant in milliseconds, as produced by
`getHours`/`getMinutes`/`getSeconds` with zero-padding; `tz` is the local
UTC offset in seconds (DST not modelled). -/
def msToClock (tz : Int) (ms : Int) : String :=
  let secOfDay := ((Int.fdiv ms 1000 + tz).emod 86400).toNat
  pad2 (secOfDay / 3600) ++ ":" ++ pad2 ((secOfDay % 3600) / 60) ++ ":" ++ pad2 (secOfDay % 60)

/-- The `durationFormatted` string of the per-fight conversion: duration seconds are
`Math.floor((endTime - startTime) / 1000)`, rendered `M:SS` with unpadded
minutes (`Math.floor(d / 60)`) and zero-padded seconds (`d % 60`). -/
def fightDuration (fight : Fight) : String :=
  Int.repr (Int.fdiv (Int.fdiv (fight.endTime - fight.startTime) 1000) 60) ++ ":"
    ++ padStart2 (Int.repr (Int.tmod (Int.fdiv (fight.endTime - fight.startTime) 1000) 60))

/-- The `bossPercentage` string of the per-fight conversion: empty when the
field is absent or 0 (JS truthiness); otherwise
`Math.floor(100 - bossPercentage / 100)` — written as the equal
`Math.floor((10000 - bossPercentage) / 100)` — followed by `%`. -/
def fightPct (fight : Fight) : String :=
  if truthyNum fight.bossPercentage then
    Int.repr (Int.fdiv (10000 - fight.bossPercentage.getD 0) 100) ++ "%"
  else ""

/-- The `phase` string of the per-fight conversion: empty when the display field
is absent or 0 (JS truthiness); otherwise `I<n>` when the intermission flag
is set (truthy), else `P<n>`. -/
def fightPhase (fight : Fight) : String :=
  if truthyNum fight.lastPhaseForPercentageDisplay then
    (if fight.lastPhaseIsIntermission = some true then "I" else "P")
      ++ Int.repr (fight.lastPhaseForPercentageDisplay.getD 0)
  else ""

/-- Per-fight conversion inside `fetchLogsFromUrl` (lines 353–396 of the
live component): `index` is the position in the filtered list. -/
def fightToEntry (tz : Int) (start : Int) (index : Nat) (fight : Fight) : TimestampEntry :=
  { id := "api-" ++ Int.repr fight.id ++ "-" ++ Nat.repr index,
    name :=
      "Pull " ++ Nat.repr (index + 1)
        ++ (if fightPhase fight ≠ "" then ": " ++ fightPhase fight else "")
        ++ (if fightPct fight ≠ "" then " - " ++ fightPct fight else "")
        ++ " (" ++ fightDuration fight ++ ")",
    pullTime := msToClock tz (start + fight.startTime) }

/-- Record-shaping core of `fetchLogsFromUrl`: drop the fights with
`boss === 0`, convert the rest in order with a 1-based sequential index. -/
def convertFights (tz : Int) (data : LogsReport) : List TimestampEntry :=
  ((data.fights.filter (fun f => f.boss ≠ 0)).enum).map
    (fun p => fightToEntry tz data.start p.1 p.2)

/-! ### Spec-side definitions

The following definitions follow the words of the specification claims (not
the source); they exist only to be compared with the source embeddings. -/

/-- Modelled from the words of claim C2: the signed difference pull minus
reference in seconds, with 86400 added unconditionally whenever the
difference is negative. -/
def specComputeOffset (referenceSecs pullSecs : Int) : Int :=
  let d := pullSecs - referenceSecs
  if d < 0 then d + 86400 else d

/-- Modelled from the words of claim C5: `H:MM:SS` when at least one whole
hour, else `M:SS`, with minutes and seconds always zero-padded to two
digits and hours unpadded. -/
def specFormatAlwaysPadded (seconds : Nat) : String :=
  if seconds ≥ 3600 then
    Nat.repr (seconds / 3600) ++ ":" ++ pad2 ((seconds % 3600) / 60) ++ ":" ++ pad2 (seconds % 60)
  else
    pad2 ((seconds % 3600) / 60) ++ ":" ++ pad2 (seconds % 60)

/-- Modelled from the words of claim C8: the k-th kept fight (1-based index
`k`) is named with phase label `I<n>`/`P<n>` per the intermission flag, the
boss-health-remaining percentage `floor(100 - bossPercentage/100)`, and the
duration `(endTime - startTime)/1000` floored, rendered `M:SS` — with the
phase and percentage parts always present as the claim states them. -/
def specFightNameC8 (k : Nat) (fight : Fight) : String :=
  let durationSeconds := Int.fdiv (fight.endTime - fight.startTime) 1000
  "Pull " ++ Nat.repr k
    ++ ": " ++ (if fight.lastPhaseIsIntermission = some true then "I" else "P")
    ++ Int.repr (fight.lastPhaseForPercentageDisplay.getD 0)
    ++ " - " ++ Int.repr (Int.fdiv (10000 - fight.bossPercentage.getD 0) 100) ++ "%"
    ++ " (" ++ Int.repr (Int.fdiv durationSeconds 60) ++ ":"
    ++ padStart2 (Int.repr (Int.tmod durationSeconds 60)) ++ ")"

/-- Matcher for the regular expression `^\d{2}:\d{2}:\d{2}$` of claim C6. -/
def matchesHHMMSS (s : String) : Bool :=
  match s.data with
  | [a, b, c, d, e, f, g, h] =>
    a.isDigit && b.isDigit && c = ':' && d.isDigit && e.isDigit && f = ':'
      && g.isDigit && h.isDigit
  | _ => false

/-! ### Toolbox lemmas -/

lemma digitChar_isDigit {m : Nat} (h : m < 10) : (Nat.digitChar m).isDigit = true := by
  interval_cases m <;> decide

lemma toDigitsCore_all_digits (fuel : Nat) :
    ∀ (n : Nat) (acc : List Char), (∀ c ∈ acc, c.isDigit = true) →
      ∀ c ∈ Nat.toDigitsCore 10 fuel n acc, c.isDigit = true := by
  induction fuel with
  | zero => intro n acc hacc; simpa [Nat.toDigitsCore] using hacc
  | succ f ih =>
    intro n acc hacc c hc
    simp only [Nat.toDigitsCore] at hc
    by_cases h0 : n / 10 = 0
    · rw [if_pos h0] at hc
      rcases List.mem_cons.mp hc with h | h
      · exact h ▸ digitChar_isDigit (Nat.mod_lt _ (by omega))
      · exact hacc c h
    · rw [if_neg h0] at hc
      refine ih (n / 10) _ ?_ c hc
      intro x hx
      rcases List.mem_cons.mp hx with h | h
      · exact h ▸ digitChar_isDigit (Nat.mod_lt _ (by omega))
      · exact hacc x h

lemma repr_data_eq (n : Nat) : (Nat.repr n).data = Nat.toDigits 10 n := rfl

lemma repr_all_digits (n : Nat) : ∀ c ∈ (Nat.repr n).data, c.isDigit = true := by
  rw [repr_data_eq]
  exact toDigitsCore_all_digits (n + 1) n [] (by intro c hc; cases hc)

lemma toDigitsCore_length_ge (fuel : Nat) :
    ∀ (n : Nat) (acc : List Char), 0 < fuel →
      acc.length + 1 ≤ (Nat.toDigitsCore 10 fuel n acc).length := by
  induction fuel with
  | zero => intro n acc h; omega
  | succ f ih =>
    intro n acc _
    simp only [Nat.toDigitsCore]
    by_cases h0 : n / 10 = 0
    · rw [if_pos h0]; simp
    · rw [if_neg h0]
      rcases Nat.eq_zero_or_pos f with rfl | hf
      · simp [Nat.toDigitsCore]
      · have := ih (n / 10) (Nat.digitChar (n % 10) :: acc) hf
        simp only [List.length_cons] at this
        omega

lemma repr_length_ge_two {n : Nat} (h : 10 ≤ n) : 2 ≤ (Nat.repr n).data.length := by
  rw [repr_data_eq]
  show 2 ≤ (Nat.toDigitsCore 10 (n + 1) n []).length
  have hfuel : n + 1 = Nat.succ n := rfl
  rw [hfuel]
  simp only [Nat.toDigitsCore]
  have h0 : ¬ n / 10 = 0 := by
    have := (Nat.one_le_div_iff (by norm_num : 0 < 10)).mpr h
    omega
  rw [if_neg h0]
  have := toDigitsCore_length_ge n (n / 10) [Nat.digitChar (n % 10)] (by omega)
  simpa using this

lemma isDigit_ne_colon {c : Char} (h : c.isDigit = true) : c ≠ ':' := by
  intro hc; subst hc; exact absurd h (by decide)

lemma isDigit_not_ws {c : Char} (h : c.isDigit = true) : isJsWs c = false := by
  by_contra hcontra
  have hw : isJsWs c = true := by
    cases hv : isJsWs c
    · exact absurd hv hcontra
    · rfl
  simp only [isJsWs, Bool.or_eq_true, decide_eq_true_eq] at hw
  rcases hw with ((((h1 | h1) | h1) | h1) | h1) | h1 <;>
    (subst h1; exact absurd h (by decide))

lemma splitOnChar_of_not_mem {sep : Char} :
    ∀ {l : List Char}, (∀ c ∈ l, c ≠ sep) → splitOnChar sep l = [l] := by
  intro l
  induction l with
  | nil => intro _; rfl
  | cons c cs ih =>
    intro h
    have hc : ¬ c = sep := h c (List.mem_cons_self c cs)
    have hcs := ih (fun x hx => h x (List.mem_cons_of_mem _ hx))
    simp only [splitOnChar, if_neg hc, hcs]

lemma splitOnChar_append {sep : Char} :
    ∀ {a : List Char} {r : List Char}, (∀ c ∈ a, c ≠ sep) →
      splitOnChar sep (a ++ sep :: r) = a :: splitOnChar sep r := by
  intro a
  induction a with
  | nil => intro r _; simp [splitOnChar]
  | cons c cs ih =>
    intro r h
    have hc : ¬ c = sep := h c (List.mem_cons_self c cs)
    have hcs := ih (r := r) (fun x hx => h x (List.mem_cons_of_mem _ hx))
    simp only [List.cons_append, splitOnChar, if_neg hc, List.append_eq, hcs]

lemma padStart2_mem {t : String} {c : Char} (h : c ∈ (padStart2 t).data) :
    c = '0' ∨ c ∈ t.data := by
  simp only [padStart2, List.asString] at h
  rcases List.mem_append.mp h with h | h
  · exact Or.inl (List.eq_of_mem_replicate h)
  · exact Or.inr h

lemma noColon_pad2 (n : Nat) : ∀ c ∈ (pad2 n).data, c ≠ ':' := by
  intro c hc
  rcases padStart2_mem hc with h | h
  · subst h; decide
  · exact isDigit_ne_colon (repr_all_digits n c h)

lemma noColon_intRepr (i : Int) : ∀ c ∈ (Int.repr i).data, c ≠ ':' := by
  intro c hc
  cases i with
  | ofNat m => exact isDigit_ne_colon (repr_all_digits m c hc)
  | negSucc m =>
    simp only [Int.repr, String.data_append] at hc
    rcases List.mem_append.mp hc with h | h
    · simp only [List.mem_singleton] at h
      subst h; decide
    · exact isDigit_ne_colon (repr_all_digits _ c h)

lemma noColon_jsNumToStr (o : Option Int) : ∀ c ∈ (jsNumToStr o).data, c ≠ ':' := by
  intro c hc
  cases o with
  | none =>
    simp only [jsNumToStr, List.mem_cons] at hc
    rcases hc with rfl | rfl | rfl | hc
    · decide
    · decide
    · decide
    · cases hc
  | some i => exact noColon_intRepr i c hc

lemma noColon_padStart2 {t : String} (h : ∀ c ∈ t.data, c ≠ ':') :
    ∀ c ∈ (padStart2 t).data, c ≠ ':' := by
  intro c hc
  rcases padStart2_mem hc with h1 | h1
  · subst h1; decide
  · exact h c h1

lemma normalize_shape (s : String) :
    normalizeTimeInput s = "" ∨ normalizeTimeInput s = s ∨
    ∃ a b : String, normalizeTimeInput s = a ++ ":" ++ b ++ ":00" ∧
      (∀ c ∈ a.data, c ≠ ':') ∧ (∀ c ∈ b.data, c ≠ ':') := by
  unfold normalizeTimeInput
  by_cases h0 : s = ""
  · rw [if_pos h0]; exact Or.inl rfl
  · rw [if_neg h0]
    by_cases h1 : (splitOnChar ':' s.data).length > 2
    · rw [if_pos h1]; exact Or.inr (Or.inl rfl)
    · rw [if_neg h1]
      cases hp : dateFnsParseHHmm s with
      | some hm =>
        right; right
        exact ⟨pad2 hm.1, pad2 hm.2, rfl, noColon_pad2 hm.1, noColon_pad2 hm.2⟩
      | none =>
        right; right
        exact ⟨_, _, rfl, noColon_padStart2 (noColon_jsNumToStr _),
          noColon_padStart2 (noColon_jsNumToStr _)⟩

lemma three_parts_data (a b : String) :
    (a ++ ":" ++ b ++ ":00").data = a.data ++ ':' :: (b.data ++ ':' :: ['0', '0']) := by
  simp [String.data_append]

lemma normalize_three_parts {a b : String}
    (ha : ∀ c ∈ a.data, c ≠ ':') (hb : ∀ c ∈ b.data, c ≠ ':') :
    normalizeTimeInput (a ++ ":" ++ b ++ ":00") = a ++ ":" ++ b ++ ":00" := by
  have hsplit : splitOnChar ':' (a ++ ":" ++ b ++ ":00").data
      = [a.data, b.data, ['0', '0']] := by
    rw [three_parts_data, splitOnChar_append ha, splitOnChar_append hb,
      splitOnChar_of_not_mem (by decide)]
  have hne : (a ++ ":" ++ b ++ ":00") ≠ "" := by
    intro h
    have hd := congrArg String.data h
    rw [three_parts_data] at hd
    simp at hd
  unfold normalizeTimeInput
  rw [if_neg hne, if_pos (by rw [hsplit]; simp)]

lemma isDigit_ne_of {c d : Char} (h : c.isDigit = true) (hd : d.isDigit = false) :
    c ≠ d := by
  intro e; subst e; simp [h] at hd

lemma dropWhile_ws_of_digits {l : List Char} (h : ∀ c ∈ l, c.isDigit = true) :
    l.dropWhile isJsWs = l := by
  cases l with
  | nil => rfl
  | cons c r =>
    rw [List.dropWhile_cons, isDigit_not_ws (h c (List.mem_cons_self c r))]
    simp

lemma jsParseIntCore_digits {l : List Char} (hne : l ≠ [])
    (h : ∀ c ∈ l, c.isDigit = true) :
    jsParseIntCore l = some (digitsToNat l : Int) := by
  cases l with
  | nil => exact absurd rfl hne
  | cons c r =>
    have hc := h c (List.mem_cons_self c r)
    have h1 : c ≠ '-' := isDigit_ne_of hc (by decide)
    have h2 : c ≠ '+' := isDigit_ne_of hc (by decide)
    simp only [jsParseIntCore, if_neg h1, if_neg h2, leadingDigits,
      List.takeWhile_eq_self_iff.mpr h]
    simp

lemma jsParseInt_digits {s : String} (hne : s.data ≠ [])
    (h : ∀ c ∈ s.data, c.isDigit = true) :
    jsParseInt s = some (digitsToNat s.data : Int) := by
  unfold jsParseInt
  rw [dropWhile_ws_of_digits h]
  exact jsParseIntCore_digits hne h

lemma dateFns_none_of_digits {s : String} (hne : s.data ≠ [])
    (h : ∀ c ∈ s.data, c.isDigit = true) : dateFnsParseHHmm s = none := by
  unfold dateFnsParseHHmm
  cases hd : s.data with
  | nil => exact absurd hd hne
  | cons c1 rest =>
    rw [hd] at h
    have hc1 := h c1 (List.mem_cons_self _ _)
    cases rest with
    | nil => simp [takeUpTo2Digits, hc1, expectColon]
    | cons c2 rest2 =>
      have hc2 := h c2 (by simp)
      cases rest2 with
      | nil => simp [takeUpTo2Digits, hc1, hc2, expectColon]
      | cons c3 rest3 =>
        have hc3 := h c3 (by simp)
        simp [takeUpTo2Digits, hc1, hc2, expectColon,
          (isDigit_ne_of hc3 (by decide) : c3 ≠ ':')]

lemma jsSplit_no_colon {s : String} (h : ∀ c ∈ s.data, c ≠ ':') :
    jsSplit s ':' = [s] := by
  unfold jsSplit
  rw [splitOnChar_of_not_mem h]
  rfl

lemma padStart2_of_ge {t : String} (h : 2 ≤ t.data.length) : padStart2 t = t := by
  unfold padStart2
  rw [Nat.sub_eq_zero_of_le h]
  rfl

lemma merge_00_suffix (A : String) : A ++ ":" ++ "00" ++ ":00" = A ++ ":00:00" := by
  apply String.ext
  simp [String.data_append]

/-- Zeta-reduced form of `eveningShorthand`. -/
lemma eveningShorthand_def (s : String) :
    eveningShorthand s =
      padStart2 (jsNumToStr (match jsParseInt ((jsSplit s ':').headD "") with
        | some h => if h < 12 then some (h + 12) else some h
        | none => none)) ++ ":" ++
      padStart2 (jsNumToStr (match (jsSplit s ':')[1]? with
        | none => some 0
        | some p => if p = "" then some 0 else jsParseInt p)) ++ ":00" := rfl

lemma eveningShorthand_digits {s : String} (hne : s.data ≠ [])
    (h : ∀ c ∈ s.data, c.isDigit = true) :
    eveningShorthand s =
      padStart2 (Nat.repr (if digitsToNat s.data < 12 then digitsToNat s.data + 12
        else digitsToNat s.data)) ++ ":00:00" := by
  have hnc : ∀ c ∈ s.data, c ≠ ':' := fun c hc => isDigit_ne_colon (h c hc)
  rw [eveningShorthand_def, jsSplit_no_colon hnc]
  simp only [List.headD_cons, List.getElem?_cons_succ, List.getElem?_nil]
  rw [jsParseInt_digits hne h]
  by_cases hv : digitsToNat s.data < 12
  · have hv' : (digitsToNat s.data : Int) < 12 := by exact_mod_cast hv
    rw [if_pos hv]
    have : ((digitsToNat s.data : Int) + 12) = ((digitsToNat s.data + 12 : Nat) : Int) := by
      push_cast; ring
    simp only [if_pos hv', this]
    show padStart2 (Int.repr (Int.ofNat (digitsToNat s.data + 12))) ++ ":" ++
        padStart2 (jsNumToStr (some 0)) ++ ":00" = _
    rw [show ∀ k : Nat, Int.repr (Int.ofNat k) = Nat.repr k from fun _ => rfl]
    exact merge_00_suffix _
  · have hv' : ¬ (digitsToNat s.data : Int) < 12 := by exact_mod_cast hv
    rw [if_neg hv]
    simp only [if_neg hv']
    show padStart2 (Int.repr (Int.ofNat (digitsToNat s.data))) ++ ":" ++
        padStart2 (jsNumToStr (some 0)) ++ ":00" = _
    rw [show ∀ k : Nat, Int.repr (Int.ofNat k) = Nat.repr k from fun _ => rfl]
    exact merge_00_suffix _

lemma jsNumber_pad2 : ∀ n < 100, jsNumber (pad2 n) = some (Int.ofNat n) := by decide

lemma jsSplit_pad_pad (a b : Nat) :
    jsSplit (pad2 a ++ ":" ++ pad2 b ++ ":00") ':' = [pad2 a, pad2 b, "00"] := by
  unfold jsSplit
  rw [three_parts_data, splitOnChar_append (noColon_pad2 a),
    splitOnChar_append (noColon_pad2 b), splitOnChar_of_not_mem (by decide)]
  rfl

lemma parseClockParts_pad {a b : Nat} (ha : a < 100) (hb : b < 100) :
    parseClockParts (pad2 a ++ ":" ++ pad2 b ++ ":00")
      = some ((a : Int) * 3600 + (b : Int) * 60, (a : Int)) := by
  unfold parseClockParts
  rw [jsSplit_pad_pad a b]
  simp only [List.headD_cons, List.getElem?_cons_succ, List.getElem?_cons_zero]
  rw [jsNumber_pad2 a ha, jsNumber_pad2 b hb]
  show some ((Int.ofNat a) * 3600 + (Int.ofNat b) * 60 + (jsNumber "00").getD 0,
    Int.ofNat a) = _
  norm_num [show jsNumber "00" = some 0 from by decide]

lemma entryLine_pad (ssecs sh : Int) {p q : Nat} (hp : p < 100) (hq : q < 100)
    (idv nm : String) :
    entryLine ssecs sh ⟨idv, nm, pad2 p ++ ":" ++ pad2 q ++ ":00"⟩
      = formatTimeForYoutube
          (max (if (p : Int) * 3600 + (q : Int) * 60 - ssecs < 0 ∧ (p : Int) < sh
            then (p : Int) * 3600 + (q : Int) * 60 - ssecs + 86400
            else (p : Int) * 3600 + (q : Int) * 60 - ssecs) 0).toNat ++ " " ++ nm := by
  unfold entryLine
  rw [parseClockParts_pad hp hq]

lemma str_append_left_ne_empty {a : String} (t : String) (ha : a.data ≠ []) :
    a ++ t ≠ "" := by
  intro e
  have hd := congrArg String.data e
  rw [String.data_append] at hd
  simp only [List.append_eq_nil] at hd
  exact ha hd.1

lemma str_append_right_ne_empty (a : String) {t : String} (ht : t.data ≠ []) :
    a ++ t ≠ "" := by
  intro e
  have hd := congrArg String.data e
  rw [String.data_append] at hd
  simp only [List.append_eq_nil] at hd
  exact ht hd.2

/-! ### Claim theorems -/

/-- C1: parsing the four-line input text `"1  (3:24)\n48%\nP2\n7:46 PM\n"`
yields exactly one entry (name `"Pull 1: P2 - 48% (3:24)"`, pull time
`"19:46:00"`), and formatting it against reference start time `"19:30"`
yields exactly the single output line `"16:00 Pull 1: P2 - 48% (3:24)"`. -/
theorem c1_end_to_end :
    (parseWarcraftlogs 0 "1  (3:24)\n48%\nP2\n7:46 PM\n").valid = true ∧
    (parseWarcraftlogs 0 "1  (3:24)\n48%\nP2\n7:46 PM\n").entries.map
        (fun e => (e.name, e.pullTime))
      = [("Pull 1: P2 - 48% (3:24)", "19:46:00")] ∧
    calculateTimestamps "19:30"
        (parseWarcraftlogs 0 "1  (3:24)\n48%\nP2\n7:46 PM\n").entries
      = some "16:00 Pull 1: P2 - 48% (3:24)" := by
  decide

/-- C2, counterexample: the wrap in the live `calculateTimestamps` is gated
on comparing hour components, not unconditional. With reference `"19:30"`
(70200 s) and pull `"19:00:00"` (68400 s) the difference is −1800 s; the
claimed unconditional rule yields 84600 s, formatted `"23:30:00"`, while the
code does not wrap (the pull hour 19 is not below the start hour 19), clamps
to 0 and outputs `"0:00 X"`. -/
theorem c2_counterexample :
    calculateTimestamps "19:30" [⟨"1", "X", "19:00:00"⟩] = some "0:00 X" ∧
    formatTimeForYoutube (specComputeOffset 70200 68400).toNat = "23:30:00" ∧
    some "0:00 X" ≠ some ("23:30:00" ++ " " ++ "X") := by
  decide

/-- C2, amended: for well-formed zero-padded clock strings the live code
adds 86400 to a negative difference only when the raw pull hour is below
the raw reference hour, and clamps the result to at least 0 before
formatting; the concrete wrap example of the claim still holds:
`"23:50:00"` → `"00:05:00"` gives 900 seconds, formatted `"15:00"`. -/
theorem c2_amended (sh sm ph pm : Nat) (idv nm : String)
    (h1 : sh < 24) (h2 : sm < 60) (h3 : ph < 24) (h4 : pm < 60) :
    calculateTimestamps (pad2 sh ++ ":" ++ pad2 sm ++ ":00")
        [⟨idv, nm, pad2 ph ++ ":" ++ pad2 pm ++ ":00"⟩]
      = some (formatTimeForYoutube
          (max (if (ph : Int) * 3600 + (pm : Int) * 60
                    - ((sh : Int) * 3600 + (sm : Int) * 60) < 0
                  ∧ (ph : Int) < (sh : Int)
            then (ph : Int) * 3600 + (pm : Int) * 60
                  - ((sh : Int) * 3600 + (sm : Int) * 60) + 86400
            else (ph : Int) * 3600 + (pm : Int) * 60
                  - ((sh : Int) * 3600 + (sm : Int) * 60)) 0).toNat
          ++ " " ++ nm) ∧
    calculateTimestamps "23:50:00" [⟨"1", "X", "00:05:00"⟩] = some "15:00 X" := by
  constructor
  · have hne : (pad2 sh ++ ":" ++ pad2 sm ++ ":00" : String) ≠ "" := by
      intro e
      have hd := congrArg String.data e
      rw [three_parts_data] at hd
      simp at hd
    unfold calculateTimestamps
    rw [if_neg (by push_neg; exact ⟨hne, by simp⟩),
      normalize_three_parts (noColon_pad2 sh) (noColon_pad2 sm),
      parseClockParts_pad (by omega) (by omega)]
    show some (String.intercalate "\n"
        (List.map (entryLine ((sh : Int) * 3600 + (sm : Int) * 60) (sh : Int))
          [⟨idv, nm, pad2 ph ++ ":" ++ pad2 pm ++ ":00"⟩])) = _
    rw [List.map_cons, List.map_nil,
      entryLine_pad _ _ (by omega : ph < 100) (by omega : pm < 100)]
    rfl
  · decide

/-- C2, amended, witness: the amended theorem applied at reference 23:50
and pull 00:05 (the wrap fires: 0 < 23 and the difference is negative). -/
theorem c2_amended_witness :
    (23 < 24 ∧ 50 < 60 ∧ 0 < 24 ∧ 5 < 60) ∧
    calculateTimestamps (pad2 23 ++ ":" ++ pad2 50 ++ ":00")
        [⟨"1", "X", pad2 0 ++ ":" ++ pad2 5 ++ ":00"⟩]
      = some (formatTimeForYoutube
          (max (if ((0 : Nat) : Int) * 3600 + ((5 : Nat) : Int) * 60
                    - (((23 : Nat) : Int) * 3600 + ((50 : Nat) : Int) * 60) < 0
                  ∧ ((0 : Nat) : Int) < ((23 : Nat) : Int)
            then ((0 : Nat) : Int) * 3600 + ((5 : Nat) : Int) * 60
                  - (((23 : Nat) : Int) * 3600 + ((50 : Nat) : Int) * 60) + 86400
            else ((0 : Nat) : Int) * 3600 + ((5 : Nat) : Int) * 60
                  - (((23 : Nat) : Int) * 3600 + ((50 : Nat) : Int) * 60)) 0).toNat
          ++ " " ++ "X") :=
  ⟨⟨by decide, by decide, by decide, by decide⟩,
    (c2_amended 23 50 0 5 "1" "X" (by decide) (by decide) (by decide) (by decide)).1⟩

/-- C3: the code contradicts the claim (and its own in-app help text) on
`"7:30"`: the date-fns `HH` token accepts one-digit hours, so two-component
validation succeeds and `normalize("7:30") = "07:30:00"` — the evening
shorthand branch is unreachable for `h:mm` inputs. The other two parts of
the claim hold: `"19:30" ↦ "19:30:00"` and `"23:10:05"` passes through. -/
theorem c3_normalize_eval :
    normalizeTimeInput "7:30" = "07:30:00" ∧
    normalizeTimeInput "7:30" ≠ "19:30:00" ∧
    normalizeTimeInput "19:30" = "19:30:00" ∧
    normalizeTimeInput "23:10:05" = "23:10:05" := by
  decide

/-- C5, counterexample: minutes are not zero-padded in the `M:SS` branch.
At 300 seconds the code renders `"5:00"`, not the `"05:00"` required by the
claimed always-padded format. -/
theorem c5_counterexample :
    formatTimeForYoutube 300 = "5:00" ∧
    specFormatAlwaysPadded 300 = "05:00" ∧
    formatTimeForYoutube 300 ≠ specFormatAlwaysPadded 300 := by
  decide

/-- C6: the legacy manual-add handler stores an entry whose `pullTime` is
`"NaN:00:00"` when given the time input `"abc"`, violating the claimed
invariant `^\d{2}:\d{2}:\d{2}$` — the `try`/`catch` validation in `addPull`
is dead because date-fns `parse` returns an Invalid Date instead of
throwing. -/
theorem c6_invariant_broken :
    addPull 0 "Boss" "abc" [] =
      some [{ id := "0", name := "Boss", pullTime := "NaN:00:00" }] ∧
    matchesHHMMSS "NaN:00:00" = false := by
  decide

/-- C4: the parser is a total tagged sum: for every input it returns either
`valid: true` with a non-empty entry list and no error message, or
`valid: false` with an empty entry list and a non-empty error message —
never both; whitespace-only (in particular empty) input always takes the
failure branch. (Totality — the source never throwing — is the totality of
the embedding: the catch-all branch of the source is unreachable.) -/
theorem c4_parse_tagged_sum (now : Nat) (text : String) :
    (((parseWarcraftlogs now text).valid = true ∧
        (parseWarcraftlogs now text).entries ≠ [] ∧
        (parseWarcraftlogs now text).errorMessage = none) ∨
      ((parseWarcraftlogs now text).valid = false ∧
        (parseWarcraftlogs now text).entries = [] ∧
        ∃ m, (parseWarcraftlogs now text).errorMessage = some m ∧ m ≠ "")) ∧
    (jsTrim text = "" → (parseWarcraftlogs now text).valid = false) := by
  unfold parseWarcraftlogs
  by_cases h0 : jsTrim text = ""
  · rw [if_pos h0]
    exact ⟨Or.inr ⟨rfl, rfl, "No text provided", rfl, by decide⟩, fun _ => rfl⟩
  · rw [if_neg h0]
    refine ⟨?_, fun h => absurd h h0⟩
    by_cases h1 : (scanLines now 0 (jsSplit text '\n')
        { pullNumber := "", pullDuration := "", phase := "", health := "",
          entries := [] }).entries = []
    · rw [if_pos h1]
      exact Or.inr ⟨rfl, rfl,
        "No valid pull data found in the text. Make sure it includes times in the format '7:46 PM'.",
        rfl, by decide⟩
    · rw [if_neg h1]
      exact Or.inl ⟨rfl, h1, rfl⟩

/-- C4, witness: the tagged-sum theorem applied at the empty input. -/
theorem c4_witness :
    (((parseWarcraftlogs 0 "").valid = true ∧
        (parseWarcraftlogs 0 "").entries ≠ [] ∧
        (parseWarcraftlogs 0 "").errorMessage = none) ∨
      ((parseWarcraftlogs 0 "").valid = false ∧
        (parseWarcraftlogs 0 "").entries = [] ∧
        ∃ m, (parseWarcraftlogs 0 "").errorMessage = some m ∧ m ≠ "")) ∧
    (jsTrim "" = "" → (parseWarcraftlogs 0 "").valid = false) :=
  c4_parse_tagged_sum 0 ""

/-- C10: `normalizeTimeInput` is idempotent — every output is either the
input itself, the empty string, or a three-component string, and
`normalizeTimeInput` returns every such string unchanged. -/
theorem c10_normalize_idempotent (s : String) :
    normalizeTimeInput (normalizeTimeInput s) = normalizeTimeInput s := by
  rcases normalize_shape s with h | h | ⟨a, b, h, ha, hb⟩
  · rw [h]; rfl
  · rw [h]; exact h
  · rw [h]; exact normalize_three_parts ha hb

/-- C9: on a bare all-digit input (no colon) the two-component date-fns
parse fails, so the evening heuristic applies with minutes 0: a literal
hour below 12 gets 12 added and renders as the two-digit numeral followed
by `":00:00"`; a literal hour of 12 or more is kept and rendered unpadded
followed by `":00:00"`. -/
theorem c9_bare_hour (s : String) (h1 : s.data ≠ [])
    (h2 : ∀ c ∈ s.data, c.isDigit = true) :
    (digitsToNat s.data < 12 →
      normalizeTimeInput s = Nat.repr (digitsToNat s.data + 12) ++ ":00:00" ∧
      (Nat.repr (digitsToNat s.data + 12)).length = 2) ∧
    (12 ≤ digitsToNat s.data →
      normalizeTimeInput s = Nat.repr (digitsToNat s.data) ++ ":00:00") := by
  have hnc : ∀ c ∈ s.data, c ≠ ':' := fun c hc => isDigit_ne_colon (h2 c hc)
  have hs : s ≠ "" := by
    intro e; apply h1; rw [e]
  have hnorm : normalizeTimeInput s = eveningShorthand s := by
    unfold normalizeTimeInput
    rw [if_neg hs, if_neg (by rw [splitOnChar_of_not_mem hnc]; simp),
      dateFns_none_of_digits h1 h2]
  rw [hnorm, eveningShorthand_digits h1 h2]
  constructor
  · intro hv
    rw [if_pos hv]
    refine ⟨by rw [padStart2_of_ge (repr_length_ge_two (by omega))], ?_⟩
    have hle : (Nat.repr (digitsToNat s.data + 12)).length ≤ 2 :=
      Nat.repr_length _ 2 (by norm_num) (by omega)
    have hge : 2 ≤ (Nat.repr (digitsToNat s.data + 12)).data.length :=
      repr_length_ge_two (by omega)
    exact le_antisymm hle hge
  · intro hv
    rw [if_neg (by omega), padStart2_of_ge (repr_length_ge_two (by omega))]

/-- C9, witness: the bare-hour theorem applied at the input `"7"`,
with `normalizeTimeInput "7" = "19:00:00"`. -/
theorem c9_witness :
    (("7" : String).data ≠ [] ∧ (∀ c ∈ ("7" : String).data, c.isDigit = true) ∧
      digitsToNat ("7" : String).data < 12) ∧
    (normalizeTimeInput "7" = Nat.repr (digitsToNat ("7" : String).data + 12) ++ ":00:00" ∧
      (Nat.repr (digitsToNat ("7" : String).data + 12)).length = 2) :=
  ⟨⟨by decide, by decide, by decide⟩,
    (c9_bare_hour "7" (by decide) (by decide)).1 (by decide)⟩

/-- C7: a malformed pull time on one entry does not abort the batch — the
output (when produced at all: non-empty start time, non-empty entry list,
parseable normalized start) is the newline-join of one line per entry in
list order, where an entry whose time fails to parse contributes the
placeholder `"Error <name>"` and every other entry contributes its
converted timestamp line. -/
theorem c7_per_entry_resilience (videoStartTime : String)
    (entries : List TimestampEntry) (ssecs sh : Int)
    (hne : entries ≠ []) (hs : videoStartTime ≠ "")
    (hctx : parseClockParts (normalizeTimeInput videoStartTime) = some (ssecs, sh)) :
    calculateTimestamps videoStartTime entries
      = some (String.intercalate "\n" (entries.map (entryLine ssecs sh))) ∧
    (∀ e ∈ entries, parseClockParts e.pullTime = none →
      entryLine ssecs sh e = "Error " ++ e.name) ∧
    (∀ e ∈ entries, ∀ psecs ph : Int,
      parseClockParts e.pullTime = some (psecs, ph) →
      entryLine ssecs sh e =
        formatTimeForYoutube
          (max (if psecs - ssecs < 0 ∧ ph < sh then psecs - ssecs + 86400
            else psecs - ssecs) 0).toNat ++ " " ++ e.name) := by
  refine ⟨?_, ?_, ?_⟩
  · unfold calculateTimestamps
    rw [if_neg (by push_neg; exact ⟨hs, hne⟩), hctx]
  · intro e _ hp
    unfold entryLine
    rw [hp]
  · intro e _ psecs ph hp
    unfold entryLine
    rw [hp]

/-- C7, witness: a three-entry batch whose middle entry has the malformed
pull time `"oops"`; the other two are converted in their positions. -/
theorem c7_witness :
    (([⟨"1", "A", "19:46:00"⟩, ⟨"2", "B", "oops"⟩,
        ⟨"3", "C", "20:30:00"⟩] : List TimestampEntry) ≠ [] ∧
      ("19:30" : String) ≠ "" ∧
      parseClockParts (normalizeTimeInput "19:30") = some (70200, 19)) ∧
    (calculateTimestamps "19:30"
        [⟨"1", "A", "19:46:00"⟩, ⟨"2", "B", "oops"⟩, ⟨"3", "C", "20:30:00"⟩]
      = some (String.intercalate "\n"
          (([⟨"1", "A", "19:46:00"⟩, ⟨"2", "B", "oops"⟩,
              ⟨"3", "C", "20:30:00"⟩] : List TimestampEntry).map (entryLine 70200 19))) ∧
      calculateTimestamps "19:30"
        [⟨"1", "A", "19:46:00"⟩, ⟨"2", "B", "oops"⟩, ⟨"3", "C", "20:30:00"⟩]
      = some "16:00 A\nError B\n1:00:00 C") :=
  ⟨⟨by decide, by decide, by decide⟩,
    (c7_per_entry_resilience "19:30"
      [⟨"1", "A", "19:46:00"⟩, ⟨"2", "B", "oops"⟩, ⟨"3", "C", "20:30:00"⟩]
      70200 19 (by decide) (by decide) (by decide)).1,
    by decide⟩

/-- Two-digit rendering of every padded value below 100. -/
lemma pad2_length_two : ∀ n < 100, (pad2 n).length = 2 := by decide

/-- C5, amended: with at least one whole hour the rendering is `H:MM:SS`
with two-digit minutes and seconds and unpadded hours; below one hour the
rendering is `M:SS` with UNPADDED minutes and two-digit seconds. -/
theorem c5_amended (s : Nat) :
    (3600 ≤ s →
      formatTimeForYoutube s
        = Nat.repr (s / 3600) ++ ":" ++ pad2 (s % 3600 / 60) ++ ":" ++ pad2 (s % 60) ∧
      (pad2 (s % 3600 / 60)).length = 2 ∧ (pad2 (s % 60)).length = 2) ∧
    (s < 3600 →
      formatTimeForYoutube s = Nat.repr (s / 60) ++ ":" ++ pad2 (s % 60) ∧
      (pad2 (s % 60)).length = 2) := by
  constructor
  · intro h
    have hpos : s / 3600 > 0 := Nat.div_pos h (by norm_num)
    refine ⟨?_, pad2_length_two _ (by omega), pad2_length_two _ (by omega)⟩
    show (if s / 3600 > 0 then
        Nat.repr (s / 3600) ++ ":" ++ pad2 (s % 3600 / 60) ++ ":" ++ pad2 (s % 60)
      else Nat.repr (s % 3600 / 60) ++ ":" ++ pad2 (s % 60)) = _
    rw [if_pos hpos]
  · intro h
    refine ⟨?_, pad2_length_two _ (by omega)⟩
    show (if s / 3600 > 0 then
        Nat.repr (s / 3600) ++ ":" ++ pad2 (s % 3600 / 60) ++ ":" ++ pad2 (s % 60)
      else Nat.repr (s % 3600 / 60) ++ ":" ++ pad2 (s % 60)) = _
    rw [if_neg (by omega), Nat.mod_eq_of_lt h]

/-- C5, amended, witness: the amended format theorem applied at 3725
seconds (`"1:02:05"`) and at 300 seconds (`"5:00"`). -/
theorem c5_amended_witness :
    (3600 ≤ 3725 ∧
      formatTimeForYoutube 3725
        = Nat.repr (3725 / 3600) ++ ":" ++ pad2 (3725 % 3600 / 60) ++ ":" ++ pad2 (3725 % 60)) ∧
    (300 < 3600 ∧
      formatTimeForYoutube 300 = Nat.repr (300 / 60) ++ ":" ++ pad2 (300 % 60)) :=
  ⟨⟨by decide, ((c5_amended 3725).1 (by decide)).1⟩,
    ⟨by decide, ((c5_amended 300).2 (by decide)).1⟩⟩

/-- C8, counterexample: a kept fight whose `bossPercentage` field is 0 is
rendered without the percentage part (JS truthiness drops it), while the
claimed formula `floor(100 − 0/100) = 100` would render `" - 100%"`. -/
theorem c8_counterexample :
    (convertFights 0 ⟨0, [⟨2, 300000, 360000, some 0, some 1, some false, 101⟩]⟩).map
        (fun e => e.name)
      = ["Pull 1: P1 (1:00)"] ∧
    specFightNameC8 1 ⟨2, 300000, 360000, some 0, some 1, some false, 101⟩
      = "Pull 1: P1 - 100% (1:00)" ∧
    ("Pull 1: P1 (1:00)" : String) ≠ "Pull 1: P1 - 100% (1:00)" := by
  decide

/-- C8, amended: the converter drops exactly the fights with `boss = 0` and
converts the kept fights in order; the k-th converted entry comes from the
k-th kept fight with the 1-based index k+1, and when the percentage and
phase fields are present and non-zero (JS truthiness keeps them) its name is
`Pull <k+1>: <I|P><n> - <floor(100 - p/100)>% (<M:SS>)` with the duration
`(endTime - startTime)/1000` floored. -/
theorem c8_amended (tz : Int) (data : LogsReport) :
    (convertFights tz data).length
      = (data.fights.filter (fun f => f.boss ≠ 0)).length ∧
    (∀ k f, (data.fights.filter (fun f => f.boss ≠ 0))[k]? = some f →
      (convertFights tz data)[k]? = some (fightToEntry tz data.start k f)) ∧
    (∀ (k : Nat) (f : Fight) (p n : Int), f.bossPercentage = some p → p ≠ 0 →
      f.lastPhaseForPercentageDisplay = some n → n ≠ 0 →
      (fightToEntry tz data.start k f).name =
        "Pull " ++ Nat.repr (k + 1)
          ++ ": " ++ ((if f.lastPhaseIsIntermission = some true then "I" else "P")
            ++ Int.repr n)
          ++ " - " ++ (Int.repr (Int.fdiv (10000 - p) 100) ++ "%")
          ++ " (" ++ (Int.repr (Int.fdiv (Int.fdiv (f.endTime - f.startTime) 1000) 60)
            ++ ":"
            ++ padStart2 (Int.repr (Int.tmod (Int.fdiv (f.endTime - f.startTime) 1000) 60)))
          ++ ")") := by
  refine ⟨?_, ?_, ?_⟩
  · unfold convertFights
    simp
  · intro k f hk
    unfold convertFights
    rw [List.getElem?_map, List.getElem?_enum, hk]
    rfl
  · intro k f p n hp hpne hn hnne
    have hphase : fightPhase f
        = (if f.lastPhaseIsIntermission = some true then "I" else "P") ++ Int.repr n := by
      unfold fightPhase
      rw [hn]
      simp [truthyNum, hnne]
    have hpct : fightPct f = Int.repr (Int.fdiv (10000 - p) 100) ++ "%" := by
      unfold fightPct
      rw [hp]
      simp [truthyNum, hpne]
    have hphase_ne : fightPhase f ≠ "" := by
      rw [hphase]
      by_cases hI : f.lastPhaseIsIntermission = some true
      · rw [if_pos hI]; exact str_append_left_ne_empty _ (by decide)
      · rw [if_neg hI]; exact str_append_left_ne_empty _ (by decide)
    have hpct_ne : fightPct f ≠ "" := by
      rw [hpct]; exact str_append_right_ne_empty _ (by decide)
    show "Pull " ++ Nat.repr (k + 1)
        ++ (if fightPhase f ≠ "" then ": " ++ fightPhase f else "")
        ++ (if fightPct f ≠ "" then " - " ++ fightPct f else "")
        ++ " (" ++ fightDuration f ++ ")" = _
    rw [if_pos hphase_ne, if_pos hpct_ne, hphase, hpct]
    apply String.ext
    simp [String.data_append, fightDuration]

/-- C8, amended, witness: one trash fight is dropped; the kept fight with
`bossPercentage = 250` and intermission phase 3 becomes
`"Pull 1: I3 - 97% (0:30)"`. -/
theorem c8_amended_witness :
    ((convertFights 0 ⟨0, [⟨3, 400000, 420000, none, none, none, 0⟩,
        ⟨4, 500000, 530000, some 250, some 3, some true, 101⟩]⟩).length
      = (([⟨3, 400000, 420000, none, none, none, 0⟩,
          ⟨4, 500000, 530000, some 250, some 3, some true, 101⟩] : List Fight).filter
            (fun f => f.boss ≠ 0)).length) ∧
    ((⟨4, 500000, 530000, some 250, some 3, some true, 101⟩ : Fight).bossPercentage
        = some 250 ∧ (250 : Int) ≠ 0 ∧
      (⟨4, 500000, 530000, some 250, some 3, some true, 101⟩ : Fight).lastPhaseForPercentageDisplay
        = some 3 ∧ (3 : Int) ≠ 0) ∧
    (fightToEntry 0 0 0 ⟨4, 500000, 530000, some 250, some 3, some true, 101⟩).name
      = "Pull 1: I3 - 97% (0:30)" :=
  ⟨(c8_amended 0 ⟨0, [⟨3, 400000, 420000, none, none, none, 0⟩,
      ⟨4, 500000, 530000, some 250, some 3, some true, 101⟩]⟩).1,
    ⟨by decide, by decide, by decide, by decide⟩,
    by
      have := (c8_amended 0 ⟨0, [⟨3, 400000, 420000, none, none, none, 0⟩,
          ⟨4, 500000, 530000, some 250, some 3, some true, 101⟩]⟩).2.2
          0 ⟨4, 500000, 530000, some 250, some 3, some true, 101⟩ 250 3
          (by decide) (by decide) (by decide) (by decide)
      rw [this]
      decide⟩

end PullJumper
